import Mathlib

/-!
Shallow embedding of the chrone timetable scheduler core
(src/server/services/scheduler.ts and the timetable-version operations of
src/server/storage.ts) together with proofs of the specified properties.

String-keyed JavaScript `Map`s are modelled as association lists in insertion
order; `Map.set`, `Map.get`, `Map.has` become `setKey`, `lookupKey`,
`hasKey`.  The two sources of randomness in the solver (the shuffle of the
constraint list and the per-constraint random tie-breaking of the slot sort)
are modelled by quantifying over the resulting orders: `solveSchedule`
receives the already-shuffled constraint list and a function `slotOrder`
giving, for the i-th processed constraint, the prioritized copy of the time
grid it walks.  Every theorem about the solver holds for all such orders,
hence for every outcome of the randomized sorts.
-/

namespace Chrone

/-- Association-list lookup, mirroring JavaScript `Map.get` (first binding in
insertion order). -/
def lookupKey {α : Type} (m : List (String × α)) (k : String) : Option α :=
  (m.find? (fun p => p.1 == k)).map Prod.snd

/-- JavaScript `Map.has`. -/
def hasKey {α : Type} (m : List (String × α)) (k : String) : Bool :=
  (m.find? (fun p => p.1 == k)).isSome

/-- JavaScript `Map.set`: overwrite the binding in place if the key is
present, else append it (JS maps preserve insertion order). -/
def setKey {α : Type} : List (String × α) → String → α → List (String × α)
  | [], k, v => [(k, v)]
  | p :: tl, k, v => if p.1 == k then (k, v) :: tl else p :: setKey tl k v

/-- Teacher record (shared schema `teachers` table); `availability` is the
per-day map of "start-end" range strings, modelled as an association list
(a day missing from the list behaves like the empty list, exactly as an
`undefined` lookup does in the source). -/
structure Teacher where
  id : String
  schoolId : String
  subjects : List String
  availability : List (String × List String)
  isActive : Bool
deriving DecidableEq

/-- `teacher.availability[day]`, with a missing day collapsing to `[]`
(the source treats `undefined` and `[]` identically). -/
def Teacher.availabilityOn (t : Teacher) (day : String) : List String :=
  (lookupKey t.availability day).getD []

/-- Subject record (`subjects` table; `schoolId` is NOT NULL in the schema.
The scheduler itself only reads `id` and `name` — `getSubjects()` is called
without a school filter — but the school scoping of the roster matters for
the failure-semantics claims). -/
structure Subject where
  id : String
  name : String
  schoolId : String
deriving DecidableEq

/-- Class record (`classes` table; `grade` and `section` are NOT NULL).
The source field `section` is a Lean keyword, hence `sectionName`. -/
structure ClassRec where
  id : String
  schoolId : String
  grade : String
  sectionName : String
deriving DecidableEq

/-- One row of `getClassSubjectAssignments`: the class-subject assignment
joined (inner join) with its subject, so `subjectName` is always present. -/
structure Assignment where
  classId : String
  subjectId : String
  weeklyFrequency : Nat
  assignedTeacherId : Option String
  subjectName : String
deriving DecidableEq

/-- A schedulable slot of the weekly grid (scheduler.ts `TimeSlot`). -/
structure TimeSlot where
  day : String
  period : Nat
  startTime : String
  endTime : String
deriving DecidableEq

/-- scheduler.ts `ScheduleConstraint`. -/
structure ScheduleConstraint where
  classId : String
  subjectId : String
  periodsNeeded : Nat
  preferredTeachers : List String
deriving DecidableEq

/-- A timetable entry as produced by the solver / stored in
`timetable_entries` (`versionId` is stamped after solving). -/
structure TimetableEntry where
  classId : String
  teacherId : String
  subjectId : String
  day : String
  period : Nat
  startTime : String
  endTime : String
  room : Option String
  versionId : Option String
  isActive : Bool
deriving DecidableEq

/-- A `timetable_versions` row. -/
structure Version where
  id : String
  classId : String
  version : String
  weekStart : String
  weekEnd : String
  isActive : Bool
deriving DecidableEq

/-- One configured slot of a school's timetable structure (`isBreak` is an
optional flag in the schema; absent means `false`). -/
structure StructSlot where
  period : Nat
  startTime : String
  endTime : String
  isBreak : Bool
deriving DecidableEq

/-- A `timetable_structures` row as read by the scheduler.  `none` models a
null/undefined field, which the source replaces by the hardcoded default via
`||` (an empty array is truthy in JavaScript and is kept as-is). -/
structure TTStructure where
  workingDays : Option (List String)
  timeSlots : Option (List StructSlot)
deriving DecidableEq

/-! ## Time Grid Builder (scheduler.ts lines 18-89) -/

/-- The canonical per-period times used both by `initializeTimeSlots` and as
the fallback inside `initializeFromStructure`. -/
def defaultPeriodTimes : List StructSlot :=
  [⟨1, "08:00", "08:45", false⟩, ⟨2, "08:45", "09:30", false⟩,
   ⟨3, "09:30", "10:15", false⟩, ⟨4, "10:15", "11:00", false⟩,
   ⟨5, "11:15", "12:00", false⟩, ⟨6, "12:00", "12:45", false⟩,
   ⟨7, "12:45", "13:30", false⟩, ⟨8, "13:30", "14:15", false⟩]

/-- The default working days. -/
def defaultDays : List String :=
  ["monday", "tuesday", "wednesday", "thursday", "friday"]

/-- `initializeTimeSlots`: appends the default 5x8 grid to the current slot
list (the source pushes without clearing; the constructor starts from `[]`). -/
def initializeTimeSlots (prev : List TimeSlot) : List TimeSlot :=
  prev ++ defaultDays.flatMap (fun d =>
    defaultPeriodTimes.map (fun t => ⟨d, t.period, t.startTime, t.endTime⟩))

/-- The slot grid of a freshly constructed `TimetableScheduler`. -/
def newSchedulerSlots : List TimeSlot :=
  initializeTimeSlots []

/-- The grid derived from a structure row: working days (or default) times
non-break configured slots (or the canonical defaults), day-major. -/
def gridFromStructure (s : TTStructure) : List TimeSlot :=
  let workingDays := s.workingDays.getD defaultDays
  let slots := s.timeSlots.getD defaultPeriodTimes
  workingDays.flatMap (fun d =>
    (slots.filter (fun t => !t.isBreak)).map
      (fun t => ⟨d, t.period, t.startTime, t.endTime⟩))

/-- `initializeFromStructure`: when a structure is found the grid is cleared
and rebuilt from it; when none is found the method does nothing and the
scheduler keeps its previous slot list. -/
def initializeFromStructure (prev : List TimeSlot)
    (st? : Option TTStructure) : List TimeSlot :=
  match st? with
  | some s => gridFromStructure s
  | none => prev

/-! ## Schedule Solver (scheduler.ts lines 260-407) -/

/-- The string key `classId-day-period` of the per-run assignment map. -/
def slotKeyOf (classId day : String) (period : Nat) : String :=
  classId ++ "-" ++ day ++ "-" ++ toString period

/-- The string key `classId-day` of the daily-subject-count map. -/
def dayKeyOf (classId day : String) : String :=
  classId ++ "-" ++ day

/-- Run-local solver state: the accumulated schedule, the assignment map
(slot key to the set of teacher ids placed there) and the nested
daily-subject-count map. -/
structure SolveState where
  schedule : List TimetableEntry
  assignments : List (String × List String)
  dailyCount : List (String × List (String × Nat))
deriving DecidableEq

/-- `getDailySubjectCount` (a missing day key behaves like an empty inner
map, and a missing subject key yields 0, as `?.` and `|| 0` do). -/
def getDailySubjectCount (st : SolveState) (classId day subjectId : String) :
    Nat :=
  (lookupKey ((lookupKey st.dailyCount (dayKeyOf classId day)).getD [])
    subjectId).getD 0

/-- `incrementDailySubjectCount`. -/
def incrementDailySubjectCount (st : SolveState)
    (classId day subjectId : String) : SolveState :=
  let dayKey := dayKeyOf classId day
  let inner := (lookupKey st.dailyCount dayKey).getD []
  let current := (lookupKey inner subjectId).getD 0
  { st with dailyCount :=
      setKey st.dailyCount dayKey (setKey inner subjectId (current + 1)) }

/-- The cross-class occupancy test inside `availableTeacher`: walk every key
of the assignment map, split it on "-" and compare the 2nd and 3rd fragments
against the slot's day and period (`parseInt` returning `NaN` compares
unequal, modelled by `String.toNat?`).  Note this re-parsing is only reached
when the teacher has a non-empty availability list for the day. -/
def conflictsAt (assignments : List (String × List String))
    (slot : TimeSlot) (teacherId : String) : Bool :=
  assignments.any (fun kv =>
    let parts := kv.1.splitOn "-"
    (parts.get? 1 == some slot.day)
    && (match (parts.get? 2).bind String.toNat? with
        | some n => n == slot.period
        | none => false)
    && kv.2.contains teacherId)

/-- The predicate passed to `eligibleTeachers.find` in `availableTeacher`:
an empty (or missing) availability list for the day returns true at once —
in particular without running the cross-class occupancy test. -/
def isAvailableForSlot (assignments : List (String × List String))
    (slot : TimeSlot) (t : Teacher) : Bool :=
  let avail := t.availabilityOn slot.day
  if avail.isEmpty then true
  else if !(avail.contains (slot.startTime ++ "-" ++ slot.endTime)) then false
  else !(conflictsAt assignments slot t.id)

/-- The base eligible set for a constraint: teachers qualified for the
subject and active. -/
def baseEligible (teachers : List Teacher) (c : ScheduleConstraint) :
    List Teacher :=
  teachers.filter (fun t => t.subjects.contains c.subjectId && t.isActive)

/-- Eligibility after the preferred-teacher narrowing: when the constraint
carries preferred teachers and some of them are in the base set, keep only
those; otherwise keep the base set. -/
def eligibleFor (teachers : List Teacher) (c : ScheduleConstraint) :
    List Teacher :=
  let base := baseEligible teachers c
  if c.preferredTeachers.length > 0 then
    let assigned := base.filter (fun t => c.preferredTeachers.contains t.id)
    if assigned.length > 0 then assigned else base
  else base

/-- The entry pushed on a successful placement. -/
def mkEntry (c : ScheduleConstraint) (slot : TimeSlot) (teacherId : String) :
    TimetableEntry :=
  { classId := c.classId, teacherId := teacherId, subjectId := c.subjectId,
    day := slot.day, period := slot.period,
    startTime := slot.startTime, endTime := slot.endTime,
    room := none, versionId := none, isActive := true }

/-- The inner slot walk of the solver for one constraint: try each slot of
the prioritized list in order until `periodsNeeded` placements are made. -/
def placeSlots (c : ScheduleConstraint) (eligible : List Teacher) :
    List TimeSlot → Nat → SolveState → SolveState
  | [], _, st => st
  | slot :: rest, scheduled, st =>
    if scheduled ≥ c.periodsNeeded then st
    else
      let key := slotKeyOf c.classId slot.day slot.period
      if hasKey st.assignments key then placeSlots c eligible rest scheduled st
      else if getDailySubjectCount st c.classId slot.day c.subjectId ≥ 2 then
        placeSlots c eligible rest scheduled st
      else
        match eligible.find? (isAvailableForSlot st.assignments slot) with
        | some t =>
          let st1 : SolveState :=
            { (incrementDailySubjectCount st c.classId slot.day c.subjectId)
                with
              assignments := setKey st.assignments key [t.id],
              schedule := st.schedule ++ [mkEntry c slot t.id] }
          placeSlots c eligible rest (scheduled + 1) st1
        | none => placeSlots c eligible rest scheduled st

/-- Process one constraint: resolve the subject (skip if unknown), compute
eligibility (skip if empty), then walk the prioritized slot list. -/
def processConstraint (teachers : List Teacher) (subjects : List Subject)
    (slots : List TimeSlot) (st : SolveState) (c : ScheduleConstraint) :
    SolveState :=
  match subjects.find? (fun s => s.id == c.subjectId) with
  | none => st
  | some _ =>
    let eligible := eligibleFor teachers c
    if eligible.length == 0 then st
    else placeSlots c eligible slots 0 st

/-- Fold over the (already shuffled) constraint list; `slotOrder i` is the
prioritized copy of the time grid used for the i-th constraint. -/
def solveScheduleAux (teachers : List Teacher) (subjects : List Subject)
    (slotOrder : Nat → List TimeSlot) :
    List ScheduleConstraint → Nat → SolveState → SolveState
  | [], _, st => st
  | c :: cs, i, st =>
    solveScheduleAux teachers subjects slotOrder cs (i + 1)
      (processConstraint teachers subjects (slotOrder i) st c)

/-- `solveSchedule`, parametrized by the shuffled constraint order and the
per-constraint slot orders (see the module docstring). -/
def solveSchedule (constraints : List ScheduleConstraint)
    (teachers : List Teacher) (subjects : List Subject)
    (slotOrder : Nat → List TimeSlot) : List TimetableEntry :=
  (solveScheduleAux teachers subjects slotOrder constraints 0
    ⟨[], [], []⟩).schedule

/-! ## Versioning (storage.ts `setActiveVersion`, lines 534-595) -/

/-- The SQL update deactivating every version of one (classId, weekStart,
weekEnd) group. -/
def deactivateGroup (db : List Version) (classId weekStart weekEnd : String) :
    List Version :=
  db.map (fun w =>
    if w.classId == classId && w.weekStart == weekStart && w.weekEnd == weekEnd
    then { w with isActive := false } else w)

/-- The SQL update activating every row whose id equals `versionId` (the id
is a primary key, so at most one row in a well-formed table). -/
def activateId (db : List Version) (versionId : String) : List Version :=
  db.map (fun w => if w.id == versionId then { w with isActive := true } else w)

/-- The safety-check count of active versions in a group. -/
def countActiveInGroup (db : List Version) (classId weekStart weekEnd : String) :
    Nat :=
  db.countP (fun w =>
    w.classId == classId && w.weekStart == weekStart && w.weekEnd == weekEnd
    && w.isActive)

/-- `setActiveVersion`: look the version up by id (no-op when absent), then
deactivate the whole (passed classId, its week) group, activate the selected
id, and re-check — force-fixing when more than one active version remains. -/
def setActiveVersion (db : List Version) (versionId classId : String) :
    List Version :=
  match db.find? (fun w => w.id == versionId) with
  | none => db
  | some v =>
    let db1 := deactivateGroup db classId v.weekStart v.weekEnd
    let db2 := activateId db1 versionId
    if countActiveInGroup db2 classId v.weekStart v.weekEnd > 1 then
      activateId (deactivateGroup db2 classId v.weekStart v.weekEnd) versionId
    else db2

/-! ## Storage state and `generateTimetable` (scheduler.ts lines 91-258,
storage.ts `bulkCreateTimetableEntries`) -/

/-- The persistent state the generation flow reads and writes.  `structures`
is keyed by schoolId (`getTimetableStructureBySchool`). -/
structure Storage where
  classes : List ClassRec
  subjects : List Subject
  teachers : List Teacher
  assignments : List Assignment
  structures : List (String × TTStructure)
  versions : List Version
  entries : List TimetableEntry
deriving DecidableEq

/-- `getTeachers(schoolId)`: active teachers of the school (storage.ts). -/
def getTeachers (st : Storage) (schoolId : String) : List Teacher :=
  st.teachers.filter (fun t => t.isActive && t.schoolId == schoolId)

/-- `getClassSubjectAssignments(classId)`. -/
def getClassSubjectAssignments (st : Storage) (classId : String) :
    List Assignment :=
  st.assignments.filter (fun a => a.classId == classId)

/-- `buildConstraints`: one constraint per class-subject assignment, with the
assigned teacher (when present) as the singleton preferred list. -/
def buildConstraints (st : Storage) (classes : List ClassRec) :
    List ScheduleConstraint :=
  classes.flatMap (fun c =>
    (getClassSubjectAssignments st c.id).map (fun a =>
      { classId := c.id, subjectId := a.subjectId,
        periodsNeeded := a.weeklyFrequency,
        preferredTeachers :=
          match a.assignedTeacherId with
          | some t => [t]
          | none => [] }))

/-- `bulkCreateTimetableEntries`: no-op on an empty batch; otherwise first
deactivate every existing entry of each affected class, then insert. -/
def bulkCreateTimetableEntries (db : List TimetableEntry)
    (new : List TimetableEntry) : List TimetableEntry :=
  match new with
  | [] => db
  | _ =>
    let classIds := (new.map (fun e => e.classId)).eraseDups
    let db1 := db.map (fun e =>
      if classIds.contains e.classId then { e with isActive := false } else e)
    db1 ++ new

/-- The result record of `generateTimetable`; `none` models an absent
optional field of the returned object. -/
structure GenResult where
  success : Bool
  message : String
  entriesCreated : Option Nat
  version : Option String
deriving DecidableEq

/-- The "class not found" failure message. -/
def msgClassNotFound : String := "Class not found."

/-- The "no user context" failure message. -/
def msgSpecific : String := "Please generate timetable for specific classes."

/-- The "no school" failure message. -/
def msgSchool : String := "Classes must be associated with a school."

/-- The empty-roster failure message. -/
def msgEnsure : String :=
  "Please ensure you have added classes, subjects, and teachers before generating timetable."

/-- The total-failure message (solver yielded zero entries). -/
def msgUnable : String :=
  "Unable to generate a valid timetable with current constraints. Please check teacher availability and subject requirements."

/-- The per-class version-creation loop of `generateTimetable`: count the
existing versions of the class for the week, mint the label `v0.(n+1)`,
insert the new version as active (`freshIds i` is the database-generated id
of the i-th created version) and run `setActiveVersion` on it.  Returns the
`versionsCreated` list of (classId, label, versionId). -/
def genVersionsLoop (freshIds : Nat → String) (weekStart weekEnd : String) :
    List ClassRec → Nat → Storage →
      List (String × String × String) × Storage
  | [], _, st => ([], st)
  | c :: cs, i, st =>
    let existing := st.versions.filter (fun v =>
      v.classId == c.id && v.weekStart == weekStart && v.weekEnd == weekEnd)
    let label := "v0." ++ toString (existing.length + 1)
    let vid := freshIds i
    let newVersion : Version :=
      { id := vid, classId := c.id, version := label,
        weekStart := weekStart, weekEnd := weekEnd, isActive := true }
    let st1 := { st with versions := st.versions ++ [newVersion] }
    let st2 := { st1 with versions := setActiveVersion st1.versions vid c.id }
    let next := genVersionsLoop freshIds weekStart weekEnd cs (i + 1) st2
    ((c.id, label, vid) :: next.1, next.2)

/-- The generation flow after the class list has been selected.  The oracle
parameters stand for the effects the source obtains elsewhere: `weekStart`
and `weekEnd` for the current-week computation from `Date`, `freshIds` for
database-generated version ids, `shuffle` and `slotOrder` for the randomized
orders inside `solveSchedule` (see above), and `prevSlots` for the
scheduler's slot grid prior to this run. -/
def generateForClasses (st : Storage) (classes : List ClassRec)
    (weekStart weekEnd : String) (freshIds : Nat → String)
    (shuffle : List ScheduleConstraint → List ScheduleConstraint)
    (slotOrder : Nat → List TimeSlot) (prevSlots : List TimeSlot) :
    GenResult × Storage :=
  match classes.head? with
  | none =>
    ({ success := false, message := msgSchool,
       entriesCreated := none, version := none }, st)
  | some c0 =>
    if c0.schoolId == "" then
      ({ success := false,
         message := msgSchool,
         entriesCreated := none, version := none }, st)
    else
      let schoolId := c0.schoolId
      let subjects := st.subjects
      let teachers := getTeachers st schoolId
      if classes.length == 0 || subjects.length == 0 || teachers.length == 0
      then
        ({ success := false,
           message := msgEnsure,
           entriesCreated := none, version := none }, st)
      else
        let _slots :=
          initializeFromStructure prevSlots (lookupKey st.structures schoolId)
        let vres := genVersionsLoop freshIds weekStart weekEnd classes 0 st
        let versionsCreated := vres.1
        let st1 := vres.2
        let constraints := buildConstraints st1 classes
        let schedule :=
          solveSchedule (shuffle constraints) teachers subjects slotOrder
        if schedule.length == 0 then
          ({ success := false,
             message := msgUnable,
             entriesCreated := none, version := none }, st1)
        else
          let scheduleWithVersions := schedule.map (fun e =>
            match versionsCreated.find? (fun v => v.1 == e.classId) with
            | some v => { e with versionId := some v.2.2 }
            | none => e)
          let st2 := { st1 with entries :=
            bulkCreateTimetableEntries st1.entries scheduleWithVersions }
          let label :=
            match versionsCreated.head? with
            | some v => v.2.1
            | none => "v0.1"
          ({ success := true,
             message := "Timetable generated successfully with "
               ++ toString schedule.length ++ " entries.",
             entriesCreated := some schedule.length,
             version := some label }, st2)

/-- `generateTimetable(classId?, userSchoolId?)`: select the classes (a
single looked-up class, or the user-school filter), then run the shared
flow. -/
def generateTimetable (st : Storage) (classId? userSchoolId? : Option String)
    (weekStart weekEnd : String) (freshIds : Nat → String)
    (shuffle : List ScheduleConstraint → List ScheduleConstraint)
    (slotOrder : Nat → List TimeSlot) (prevSlots : List TimeSlot) :
    GenResult × Storage :=
  match classId? with
  | some cid =>
    match st.classes.find? (fun c => c.id == cid) with
    | none =>
      ({ success := false, message := msgClassNotFound,
         entriesCreated := none, version := none }, st)
    | some c =>
      generateForClasses st [c] weekStart weekEnd freshIds shuffle slotOrder
        prevSlots
  | none =>
    match userSchoolId? with
    | none =>
      ({ success := false,
         message := msgSpecific,
         entriesCreated := none, version := none }, st)
    | some u =>
      generateForClasses st (st.classes.filter (fun c => c.schoolId == u))
        weekStart weekEnd freshIds shuffle slotOrder prevSlots

/-! ## Validator (scheduler.ts lines 409-515) -/

/-- The `day-period` slot key used by the validator. -/
def slotDP (e : TimetableEntry) : String :=
  e.day ++ "-" ++ toString e.period

/-- The teacher-conflict message. -/
def teacherConflictMsg (e ce : TimetableEntry) : String :=
  "Teacher conflict: Teacher " ++ e.teacherId ++ " is scheduled for both Class "
    ++ e.classId ++ " and Class " ++ ce.classId ++ " on " ++ e.day
    ++ " period " ++ toString e.period

/-- The teacher double-booking pass: walk the entries keeping, per teacher,
the set of `day-period` keys seen; on a repeat, look for an entry of the
same teacher and slot in a *different* class and report it if found. -/
def teacherConflictsAux (allEntries : List TimetableEntry) :
    List TimetableEntry → List (String × List String) → List String
  | [], _ => []
  | e :: rest, sched =>
    let key := slotDP e
    let slots := (lookupKey sched e.teacherId).getD []
    if slots.contains key then
      match allEntries.find? (fun x =>
          x.teacherId == e.teacherId && x.day == e.day && x.period == e.period
          && x.classId != e.classId) with
      | some ce => teacherConflictMsg e ce :: teacherConflictsAux allEntries rest sched
      | none => teacherConflictsAux allEntries rest sched
    else
      teacherConflictsAux allEntries rest
        (setKey sched e.teacherId (slots ++ [key]))

/-- The teacher-conflict strings `validateTimetable` accumulates. -/
def teacherConflictsPass (entries : List TimetableEntry) : List String :=
  teacherConflictsAux entries entries []

/-- The room-conflict message. -/
def roomConflictMsg (room : String) (e : TimetableEntry) : String :=
  "Room conflict: Room " ++ room ++ " is double-booked on " ++ e.day
    ++ " period " ++ toString e.period

/-- The room double-booking pass (`!entry.room` skips both a null and an
empty-string room, both falsy in the source). -/
def roomConflictsAux :
    List TimetableEntry → List (String × List String) → List String
  | [], _ => []
  | e :: rest, sched =>
    match e.room with
    | none => roomConflictsAux rest sched
    | some room =>
      if room == "" then roomConflictsAux rest sched
      else
        let key := slotDP e
        let slots := (lookupKey sched room).getD []
        if slots.contains key then
          roomConflictMsg room e :: roomConflictsAux rest sched
        else
          roomConflictsAux rest (setKey sched room (slots ++ [key]))

/-- The room-conflict strings `validateTimetable` accumulates. -/
def roomConflictsPass (entries : List TimetableEntry) : List String :=
  roomConflictsAux entries []

/-- The nested per-class per-subject entry count map. -/
def buildClassSubjectCount :
    List TimetableEntry → List (String × List (String × Nat)) →
      List (String × List (String × Nat))
  | [], m => m
  | e :: rest, m =>
    let inner := (lookupKey m e.classId).getD []
    let current := (lookupKey inner e.subjectId).getD 0
    buildClassSubjectCount rest
      (setKey m e.classId (setKey inner e.subjectId (current + 1)))

/-- `assignment.subject?.name || 'Unknown Subject'` (an empty name is falsy). -/
def subjectNameOf (a : Assignment) : String :=
  if a.subjectName == "" then "Unknown Subject" else a.subjectName

/-- The under-provisioning message. -/
def insufficientMsg (c : ClassRec) (a : Assignment) (actual : Nat) : String :=
  "Insufficient periods: Class " ++ c.grade ++ "-" ++ c.sectionName
    ++ " needs " ++ toString a.weeklyFrequency ++ " periods of "
    ++ subjectNameOf a ++ " but only has " ++ toString actual

/-- The over-provisioning message. -/
def excessMsg (c : ClassRec) (a : Assignment) (actual : Nat) : String :=
  "Excess periods: Class " ++ c.grade ++ "-" ++ c.sectionName ++ " has "
    ++ toString actual ++ " periods of " ++ subjectNameOf a
    ++ " but only needs " ++ toString a.weeklyFrequency

/-- The frequency pass: for every class and every one of its class-subject
assignments, compare the actual count against the weekly frequency. -/
def freqConflicts (st : Storage)
    (counts : List (String × List (String × Nat))) : List String :=
  st.classes.flatMap (fun c =>
    let actualCounts := (lookupKey counts c.id).getD []
    (getClassSubjectAssignments st c.id).flatMap (fun a =>
      let actual := (lookupKey actualCounts a.subjectId).getD 0
      (if actual < a.weeklyFrequency then [insufficientMsg c a actual] else [])
        ++ (if actual > a.weeklyFrequency then [excessMsg c a actual] else [])))

/-- `getTimetableEntries()`: the currently active entries. -/
def activeEntries (st : Storage) : List TimetableEntry :=
  st.entries.filter (fun e => e.isActive)

/-- The record `validateTimetable` returns. -/
structure ValidationResult where
  isValid : Bool
  conflicts : List String
deriving DecidableEq

/-- `validateTimetable`: the three conflict passes over the active entry
set, with `isValid` true exactly when no conflict was collected. -/
def validateTimetable (st : Storage) : ValidationResult :=
  let entries := activeEntries st
  let conflicts :=
    teacherConflictsPass entries ++ roomConflictsPass entries
      ++ freqConflicts st (buildClassSubjectCount entries [])
  { isValid := conflicts.length == 0, conflicts := conflicts }

/-! ## Association-list lemmas -/

theorem lookupKey_setKey {α : Type} (m : List (String × α)) (k k' : String)
    (v : α) :
    lookupKey (setKey m k v) k' = if k' = k then some v else lookupKey m k' := by
  induction m with
  | nil =>
    by_cases h : k' = k
    · simp [setKey, lookupKey, List.find?, h]
    · have hne : (k == k') = false := by
        simp [Ne.symm h]
      simp [setKey, lookupKey, List.find?, hne, h]
  | cons p tl ih =>
    by_cases hp : p.1 == k
    · have hpk : p.1 = k := by simpa using hp
      by_cases h : k' = k
      · simp [setKey, hp, hpk, lookupKey, List.find?, h]
      · have hne : (k == k') = false := by
          simp [Ne.symm h]
        simp [setKey, hp, hpk, lookupKey, List.find?, hne, h]
    · have hpk : p.1 ≠ k := by simpa using hp
      by_cases h : k' = k
      · subst h
        simp only [setKey, if_neg hp]
        simpa [lookupKey, List.find?, hp] using ih
      · by_cases hpk2 : p.1 == k' <;>
          simpa [setKey, hp, lookupKey, List.find?, hpk2, h] using ih

/-- The daily-subject-count value depends only on the composed day key and
the subject id. -/
theorem getDailySubjectCount_congr (st : SolveState) {c d c' d' : String}
    (s : String) (h : dayKeyOf c' d' = dayKeyOf c d) :
    getDailySubjectCount st c' d' s = getDailySubjectCount st c d s := by
  unfold getDailySubjectCount
  rw [h]

/-- Effect of `incrementDailySubjectCount` on `getDailySubjectCount`. -/
theorem getDailySubjectCount_increment (st : SolveState)
    (c d s c' d' s' : String) :
    getDailySubjectCount (incrementDailySubjectCount st c d s) c' d' s' =
      if dayKeyOf c' d' = dayKeyOf c d ∧ s' = s then
        getDailySubjectCount st c' d' s' + 1
      else getDailySubjectCount st c' d' s' := by
  simp only [getDailySubjectCount, incrementDailySubjectCount,
    lookupKey_setKey]
  by_cases h1 : dayKeyOf c' d' = dayKeyOf c d
  · by_cases h2 : s' = s
    · simp [h1, h2, lookupKey_setKey]
    · simp [h1, h2, lookupKey_setKey]
  · simp [h1]

/-! ## The daily cap (claim C2) -/

/-- Entry count of one (classId, day, subjectId) triple. -/
def cntTriple (l : List TimetableEntry) (c d s : String) : Nat :=
  l.countP (fun e => e.classId == c && e.day == d && e.subjectId == s)

theorem cntTriple_append_one (l : List TimetableEntry) (e : TimetableEntry)
    (c d s : String) :
    cntTriple (l ++ [e]) c d s =
      cntTriple l c d s
        + (if e.classId = c ∧ e.day = d ∧ e.subjectId = s then 1 else 0) := by
  by_cases h : e.classId = c ∧ e.day = d ∧ e.subjectId = s
  · obtain ⟨h1, h2, h3⟩ := h
    simp [cntTriple, List.countP_append, List.countP_cons, h1, h2, h3]
  · have : (e.classId == c && e.day == d && e.subjectId == s) = false := by
      rcases not_and_or.mp h with h1 | h23
      · simp [h1]
      · rcases not_and_or.mp h23 with h2 | h3
        · simp [h2]
        · simp [h3]
    simp [cntTriple, List.countP_append, List.countP_cons, this, h]

/-- The two-part solver invariant behind the daily cap: every triple's entry
count is bounded by its daily-count map value, and every map value is at
most 2. -/
abbrev CapInv (st : SolveState) : Prop :=
  (∀ c d s, cntTriple st.schedule c d s ≤ getDailySubjectCount st c d s)
    ∧ (∀ c d s, getDailySubjectCount st c d s ≤ 2)

theorem placeSlots_cap (cst : ScheduleConstraint) (elig : List Teacher)
    (slots : List TimeSlot) :
    ∀ (n : Nat) (st : SolveState), CapInv st →
      CapInv (placeSlots cst elig slots n st) := by
  induction slots with
  | nil => intro n st h; exact h
  | cons slot rest ih =>
    intro n st h
    obtain ⟨hle, hcap⟩ := h
    by_cases hstop : n ≥ cst.periodsNeeded
    · simpa [placeSlots, hstop] using And.intro hle hcap
    · by_cases hocc :
        hasKey st.assignments (slotKeyOf cst.classId slot.day slot.period)
      · have hrec := ih n st ⟨hle, hcap⟩
        simpa [placeSlots, hstop, hocc] using hrec
      · by_cases hday :
          getDailySubjectCount st cst.classId slot.day cst.subjectId ≥ 2
        · have hrec := ih n st ⟨hle, hcap⟩
          simpa [placeSlots, hstop, hocc, hday] using hrec
        · cases hfind : elig.find? (isAvailableForSlot st.assignments slot)
            with
          | none =>
            have hrec := ih n st ⟨hle, hcap⟩
            simpa [placeSlots, hstop, hocc, hday, hfind] using hrec
          | some t =>
            have hle1 : ∀ c d s,
                cntTriple (st.schedule ++ [mkEntry cst slot t.id]) c d s ≤
                getDailySubjectCount
                  (incrementDailySubjectCount st cst.classId slot.day
                    cst.subjectId) c d s := by
              intro c d s
              rw [getDailySubjectCount_increment, cntTriple_append_one]
              by_cases hm : (mkEntry cst slot t.id).classId = c
                  ∧ (mkEntry cst slot t.id).day = d
                  ∧ (mkEntry cst slot t.id).subjectId = s
              · obtain ⟨h1, h2, h3⟩ := hm
                have h1' : cst.classId = c := h1
                have h2' : slot.day = d := h2
                have h3' : cst.subjectId = s := h3
                have hcond : dayKeyOf c d = dayKeyOf cst.classId slot.day
                    ∧ s = cst.subjectId := by
                  constructor
                  · rw [← h1', ← h2']
                  · rw [← h3']
                rw [if_pos hcond, if_pos ⟨h1, h2, h3⟩]
                have := hle c d s
                omega
              · rw [if_neg hm]
                by_cases hcond : dayKeyOf c d = dayKeyOf cst.classId slot.day
                    ∧ s = cst.subjectId
                · rw [if_pos hcond]
                  have := hle c d s
                  omega
                · rw [if_neg hcond]
                  exact hle c d s
            have hcap1 : ∀ c d s,
                getDailySubjectCount
                  (incrementDailySubjectCount st cst.classId slot.day
                    cst.subjectId) c d s ≤ 2 := by
              intro c d s
              rw [getDailySubjectCount_increment]
              by_cases hcond : dayKeyOf c d = dayKeyOf cst.classId slot.day
                  ∧ s = cst.subjectId
              · rw [if_pos hcond]
                have hsame : getDailySubjectCount st c d s =
                    getDailySubjectCount st cst.classId slot.day s :=
                  getDailySubjectCount_congr st s hcond.1
                rw [hsame, hcond.2]
                omega
              · rw [if_neg hcond]
                exact hcap c d s
            have hrec := ih (n + 1)
              ({ (incrementDailySubjectCount st cst.classId slot.day
                    cst.subjectId) with
                 assignments := setKey st.assignments
                   (slotKeyOf cst.classId slot.day slot.period) [t.id],
                 schedule := st.schedule ++ [mkEntry cst slot t.id] })
              ⟨hle1, hcap1⟩
            simpa [placeSlots, hstop, hocc, hday, hfind] using hrec

theorem processConstraint_cap (teachers : List Teacher)
    (subjects : List Subject) (slots : List TimeSlot) (st : SolveState)
    (c : ScheduleConstraint) (h : CapInv st) :
    CapInv (processConstraint teachers subjects slots st c) := by
  unfold processConstraint
  cases hfind : subjects.find? (fun s => s.id == c.subjectId) with
  | none => exact h
  | some s0 =>
    by_cases he : (eligibleFor teachers c).length == 0
    · simpa [he] using h
    · simpa [he] using placeSlots_cap c (eligibleFor teachers c) slots 0 st h

theorem solveScheduleAux_cap (teachers : List Teacher)
    (subjects : List Subject) (slotOrder : Nat → List TimeSlot) :
    ∀ (cs : List ScheduleConstraint) (i : Nat) (st : SolveState), CapInv st →
      CapInv (solveScheduleAux teachers subjects slotOrder cs i st) := by
  intro cs
  induction cs with
  | nil => intro i st h; exact h
  | cons c rest ih =>
    intro i st h
    exact ih (i + 1) _
      (processConstraint_cap teachers subjects (slotOrder i) st c h)

/-- C2: for every (classId, day, subjectId), the number of entries produced
by one `solveSchedule` run never exceeds 2: a slot is skipped whenever the
daily subject count for that class and day has already reached 2, and the
count is incremented on every placement.  Quantified over every constraint
shuffle and every slot prioritization, hence over every random outcome. -/
theorem C2_daily_subject_cap (constraints : List ScheduleConstraint)
    (teachers : List Teacher) (subjects : List Subject)
    (slotOrder : Nat → List TimeSlot) (c d s : String) :
    cntTriple (solveSchedule constraints teachers subjects slotOrder) c d s
      ≤ 2 := by
  have hinit : CapInv ⟨[], [], []⟩ := by
    constructor
    · intro c d s
      simp [cntTriple, getDailySubjectCount, lookupKey]
    · intro c d s
      simp [getDailySubjectCount, lookupKey]
  have h := solveScheduleAux_cap teachers subjects slotOrder constraints 0
    ⟨[], [], []⟩ hinit
  exact le_trans (h.1 c d s) (h.2 c d s)

/-! ## Solver soundness lemmas (claims C1, C7, C8) -/

theorem mem_eligibleFor (teachers : List Teacher) (c : ScheduleConstraint)
    (t : Teacher) (ht : t ∈ eligibleFor teachers c) :
    t ∈ teachers ∧ t.subjects.contains c.subjectId = true
      ∧ t.isActive = true := by
  have hbase : t ∈ baseEligible teachers c := by
    simp only [eligibleFor] at ht
    by_cases hp : c.preferredTeachers.length > 0
    · rw [if_pos hp] at ht
      by_cases ha : ((baseEligible teachers c).filter
          (fun t => c.preferredTeachers.contains t.id)).length > 0
      · rw [if_pos ha] at ht
        exact List.mem_of_mem_filter ht
      · rwa [if_neg ha] at ht
    · rwa [if_neg hp] at ht
  refine ⟨List.mem_of_mem_filter hbase, ?_, ?_⟩ <;>
    · have := List.of_mem_filter hbase
      simp only [Bool.and_eq_true] at this
      tauto

theorem avail_of_isAvailableForSlot (A : List (String × List String))
    (slot : TimeSlot) (t : Teacher)
    (h : isAvailableForSlot A slot t = true) :
    t.availabilityOn slot.day = [] ∨
      (slot.startTime ++ "-" ++ slot.endTime) ∈ t.availabilityOn slot.day := by
  simp only [isAvailableForSlot] at h
  by_cases he : (t.availabilityOn slot.day).isEmpty
  · left
    exact List.isEmpty_iff.mp he
  · right
    rw [if_neg he] at h
    simp at h
    exact h.1

theorem placeSlots_mem (cst : ScheduleConstraint) (elig : List Teacher)
    (slots : List TimeSlot) :
    ∀ (n : Nat) (st : SolveState) (e : TimetableEntry),
      e ∈ (placeSlots cst elig slots n st).schedule →
      e ∈ st.schedule ∨ ∃ slot ∈ slots, ∃ t ∈ elig,
        (∃ A, isAvailableForSlot A slot t = true)
          ∧ e = mkEntry cst slot t.id := by
  induction slots with
  | nil => intro n st e he; exact Or.inl he
  | cons slot rest ih =>
    intro n st e he
    by_cases hstop : n ≥ cst.periodsNeeded
    · rw [placeSlots, if_pos hstop] at he
      exact Or.inl he
    · rw [placeSlots, if_neg hstop] at he
      simp only at he
      by_cases hocc :
        hasKey st.assignments (slotKeyOf cst.classId slot.day slot.period)
      · rw [if_pos hocc] at he
        rcases ih n st e he with h | ⟨sl, hsl, t, htl, hA, heq⟩
        · exact Or.inl h
        · exact Or.inr ⟨sl, List.mem_cons_of_mem _ hsl, t, htl, hA, heq⟩
      · rw [if_neg hocc] at he
        by_cases hday :
          getDailySubjectCount st cst.classId slot.day cst.subjectId ≥ 2
        · rw [if_pos hday] at he
          rcases ih n st e he with h | ⟨sl, hsl, t, htl, hA, heq⟩
          · exact Or.inl h
          · exact Or.inr ⟨sl, List.mem_cons_of_mem _ hsl, t, htl, hA, heq⟩
        · rw [if_neg hday] at he
          cases hfind : elig.find? (isAvailableForSlot st.assignments slot)
            with
          | none =>
            rw [hfind] at he
            rcases ih n st e he with h | ⟨sl, hsl, t, htl, hA, heq⟩
            · exact Or.inl h
            · exact Or.inr ⟨sl, List.mem_cons_of_mem _ hsl, t, htl, hA, heq⟩
          | some t =>
            rw [hfind] at he
            rcases ih (n + 1) _ e he with h | ⟨sl, hsl, t1, htl, hA, heq⟩
            · rcases List.mem_append.mp h with h1 | h2
              · exact Or.inl h1
              · have heq : e = mkEntry cst slot t.id := by
                  simpa using h2
                refine Or.inr ⟨slot, List.mem_cons_self _ _, t, ?_, ?_, heq⟩
                · exact List.mem_of_find?_eq_some hfind
                · exact ⟨st.assignments, List.find?_some hfind⟩
            · exact Or.inr ⟨sl, List.mem_cons_of_mem _ hsl, t1, htl, hA, heq⟩

theorem processConstraint_mem (teachers : List Teacher)
    (subjects : List Subject) (slots : List TimeSlot) (st : SolveState)
    (c : ScheduleConstraint) (e : TimetableEntry)
    (h : e ∈ (processConstraint teachers subjects slots st c).schedule) :
    e ∈ st.schedule ∨ ∃ slot, ∃ t ∈ eligibleFor teachers c,
      (∃ A, isAvailableForSlot A slot t = true) ∧ e = mkEntry c slot t.id := by
  unfold processConstraint at h
  cases hfind : subjects.find? (fun s => s.id == c.subjectId) with
  | none =>
    rw [hfind] at h
    exact Or.inl h
  | some s0 =>
    rw [hfind] at h
    simp only at h
    by_cases he : (eligibleFor teachers c).length == 0
    · rw [if_pos he] at h
      exact Or.inl h
    · rw [if_neg he] at h
      rcases placeSlots_mem c (eligibleFor teachers c) slots 0 st e h with
        h1 | ⟨slot, _, t, htl, hA, heq⟩
      · exact Or.inl h1
      · exact Or.inr ⟨slot, t, htl, hA, heq⟩

theorem solveScheduleAux_mem (teachers : List Teacher)
    (subjects : List Subject) (slotOrder : Nat → List TimeSlot) :
    ∀ (cs : List ScheduleConstraint) (i : Nat) (st : SolveState)
      (e : TimetableEntry),
      e ∈ (solveScheduleAux teachers subjects slotOrder cs i st).schedule →
      e ∈ st.schedule ∨ ∃ c ∈ cs, ∃ slot, ∃ t ∈ eligibleFor teachers c,
        (∃ A, isAvailableForSlot A slot t = true)
          ∧ e = mkEntry c slot t.id := by
  intro cs
  induction cs with
  | nil => intro i st e he; exact Or.inl he
  | cons c rest ih =>
    intro i st e he
    rcases ih (i + 1) _ e he with h | ⟨c1, hc1, slot, t, htl, hA, heq⟩
    · rcases processConstraint_mem teachers subjects (slotOrder i) st c e h
        with h1 | ⟨slot, t, htl, hA, heq⟩
      · exact Or.inl h1
      · exact Or.inr ⟨c, List.mem_cons_self _ _, slot, t, htl, hA, heq⟩
    · exact Or.inr ⟨c1, List.mem_cons_of_mem _ hc1, slot, t, htl, hA, heq⟩

/-- C7: every entry returned by `solveSchedule` names a teacher of the
roster who is active, qualified for the entry's subject, and whose
availability for the entry's day is either empty (available by default) or
contains the exact "startTime-endTime" string of the entry's slot. -/
theorem C7_entry_teacher_sound (constraints : List ScheduleConstraint)
    (teachers : List Teacher) (subjects : List Subject)
    (slotOrder : Nat → List TimeSlot) :
    ∀ e ∈ solveSchedule constraints teachers subjects slotOrder,
      ∃ t ∈ teachers, t.id = e.teacherId ∧ t.isActive = true
        ∧ e.subjectId ∈ t.subjects
        ∧ (t.availabilityOn e.day = []
            ∨ (e.startTime ++ "-" ++ e.endTime) ∈ t.availabilityOn e.day) := by
  intro e he
  rcases solveScheduleAux_mem teachers subjects slotOrder constraints 0
      ⟨[], [], []⟩ e he with h | ⟨c, _, slot, t, htl, ⟨A, hA⟩, heq⟩
  · simp at h
  · obtain ⟨htm, hsub, hact⟩ := mem_eligibleFor teachers c t htl
    have havail := avail_of_isAvailableForSlot A slot t hA
    refine ⟨t, htm, ?_, hact, ?_, ?_⟩
    · rw [heq]; rfl
    · have : e.subjectId = c.subjectId := by rw [heq]; rfl
      rw [this]
      simpa using hsub
    · have hday : e.day = slot.day := by rw [heq]; rfl
      have hst : e.startTime = slot.startTime := by rw [heq]; rfl
      have hen : e.endTime = slot.endTime := by rw [heq]; rfl
      rw [hday, hst, hen]
      exact havail

/-- C8: for a constraint with a non-empty preferred-teacher list, (i) if
some preferred teacher is in the qualified-and-active base set, then every
entry the constraint generates uses a preferred teacher; (ii) if no
preferred teacher is in the base set, the full base pool is used; (iii) if
the eligible set is empty after the narrowing, the constraint yields no
entries at all. -/
theorem C8_preferred_teachers (teachers : List Teacher)
    (subjects : List Subject) (slots : List TimeSlot) (st : SolveState)
    (c : ScheduleConstraint) (hpref : c.preferredTeachers ≠ []) :
    ((∃ t ∈ baseEligible teachers c, t.id ∈ c.preferredTeachers) →
        ∀ e ∈ (processConstraint teachers subjects slots st c).schedule,
          e ∈ st.schedule ∨ e.teacherId ∈ c.preferredTeachers)
    ∧ ((∀ t ∈ baseEligible teachers c, t.id ∉ c.preferredTeachers) →
        eligibleFor teachers c = baseEligible teachers c)
    ∧ (eligibleFor teachers c = [] →
        (processConstraint teachers subjects slots st c).schedule
          = st.schedule) := by
  refine ⟨?_, ?_, ?_⟩
  · rintro ⟨t0, ht0, hp0⟩ e he
    have hlen : c.preferredTeachers.length > 0 := by
      cases hcp : c.preferredTeachers with
      | nil => exact absurd hcp hpref
      | cons a l => simp
    have hfl : ((baseEligible teachers c).filter
        (fun t => c.preferredTeachers.contains t.id)).length > 0 := by
      have hmem : t0 ∈ (baseEligible teachers c).filter
          (fun t => c.preferredTeachers.contains t.id) :=
        List.mem_filter.mpr ⟨ht0, by simpa using hp0⟩
      exact List.length_pos.mpr (List.ne_nil_of_mem hmem)
    have helig : eligibleFor teachers c = (baseEligible teachers c).filter
        (fun t => c.preferredTeachers.contains t.id) := by
      simp only [eligibleFor]
      rw [if_pos hlen, if_pos hfl]
    rcases processConstraint_mem teachers subjects slots st c e he with
      h | ⟨slot, t, htl, _, heq⟩
    · exact Or.inl h
    · right
      rw [helig] at htl
      have hcont := (List.mem_filter.mp htl).2
      have hteq : e.teacherId = t.id := by rw [heq]; rfl
      rw [hteq]
      simpa using hcont
  · intro hnone
    simp only [eligibleFor]
    by_cases hlen : c.preferredTeachers.length > 0
    · rw [if_pos hlen]
      have hfe : (baseEligible teachers c).filter
          (fun t => c.preferredTeachers.contains t.id) = [] := by
        refine List.filter_eq_nil_iff.mpr ?_
        intro t ht
        simpa using hnone t ht
      rw [hfe]
      simp
    · rw [if_neg hlen]
  · intro hemp
    unfold processConstraint
    cases hfind : subjects.find? (fun s => s.id == c.subjectId) with
    | none => rfl
    | some s0 =>
      simp [hemp]

/-! ## Concrete runs of the solver -/

/-- One subject. -/
def demoSubjects : List Subject := [⟨"s1", "Math", "sch1"⟩]

/-- One active teacher qualified for `s1` with an empty availability map
("available by default" for every day). -/
def demoTeachers : List Teacher := [⟨"t1", "sch1", ["s1"], [], true⟩]

/-- Two classes each needing one period of `s1`. -/
def demoConstraints : List ScheduleConstraint :=
  [⟨"c1", "s1", 1, []⟩, ⟨"c2", "s1", 1, []⟩]

/-- A one-slot grid. -/
def demoSlot : TimeSlot := ⟨"monday", 1, "08:00", "08:45"⟩

/-- A concrete solver run: one teacher, one slot, two classes. -/
def demoRun : List TimetableEntry :=
  solveSchedule demoConstraints demoTeachers demoSubjects (fun _ => [demoSlot])

/-- C1 (code bug): the produced entry list double-books teacher `t1` at
(monday, period 1) for the two distinct classes `c1` and `c2`.  The
availability-empty early return inside `availableTeacher` (scheduler.ts
lines 351-354) skips the cross-class occupancy check entirely, so the hard
no-teacher-double-booking constraint the claim states is violated on this
input. -/
theorem C1_teacher_double_booking_failing_input :
    ∃ e1 ∈ demoRun, ∃ e2 ∈ demoRun,
      e1.teacherId = e2.teacherId ∧ e1.day = e2.day ∧ e1.period = e2.period
        ∧ e1.classId ≠ e2.classId := by decide

/-- Witness for C7 at a concrete input: the single-slot demo run produced
this entry, and its teacher satisfies all the soundness conditions. -/
theorem C7_witness :
    ((⟨"c1", "t1", "s1", "monday", 1, "08:00", "08:45", none, none, true⟩ :
        TimetableEntry) ∈ demoRun)
    ∧ ∃ t ∈ demoTeachers, t.id = "t1" ∧ t.isActive = true
        ∧ ("s1" : String) ∈ t.subjects
        ∧ (t.availabilityOn "monday" = []
            ∨ ("08:00" ++ "-" ++ "08:45" : String) ∈
                t.availabilityOn "monday") := by
  constructor
  · decide
  · exact C7_entry_teacher_sound demoConstraints demoTeachers demoSubjects
      (fun _ => [demoSlot])
      ⟨"c1", "t1", "s1", "monday", 1, "08:00", "08:45", none, none, true⟩
      (by decide)

/-- Two active teachers qualified for `s1`. -/
def demoTeachers2 : List Teacher :=
  [⟨"t1", "sch1", ["s1"], [], true⟩, ⟨"t2", "sch1", ["s1"], [], true⟩]

/-- A constraint carrying the assigned teacher `t2`. -/
def demoCPref : ScheduleConstraint := ⟨"c1", "s1", 1, ["t2"]⟩

/-- Witness for C8 at a concrete input with a non-empty preferred list. -/
theorem C8_witness :
    demoCPref.preferredTeachers ≠ []
    ∧ (((∃ t ∈ baseEligible demoTeachers2 demoCPref,
            t.id ∈ demoCPref.preferredTeachers) →
          ∀ e ∈ (processConstraint demoTeachers2 demoSubjects [demoSlot]
              ⟨[], [], []⟩ demoCPref).schedule,
            e ∈ (⟨[], [], []⟩ : SolveState).schedule
              ∨ e.teacherId ∈ demoCPref.preferredTeachers)
      ∧ ((∀ t ∈ baseEligible demoTeachers2 demoCPref,
            t.id ∉ demoCPref.preferredTeachers) →
          eligibleFor demoTeachers2 demoCPref
            = baseEligible demoTeachers2 demoCPref)
      ∧ (eligibleFor demoTeachers2 demoCPref = [] →
          (processConstraint demoTeachers2 demoSubjects [demoSlot]
              ⟨[], [], []⟩ demoCPref).schedule
            = (⟨[], [], []⟩ : SolveState).schedule)) :=
  ⟨by decide, C8_preferred_teachers demoTeachers2 demoSubjects [demoSlot]
    ⟨[], [], []⟩ demoCPref (by decide)⟩

/-! ## Versioning invariant (claim C3) -/

/-- Version-table well-formedness: ids are pairwise distinct (the id column
is a primary key in the schema). -/
abbrev UniqueIds (db : List Version) : Prop :=
  db.Pairwise (fun a b => a.id ≠ b.id)

/-- Membership test for the (classId, weekStart, weekEnd) group. -/
def inGroup (c ws we : String) (v : Version) : Bool :=
  v.classId == c && v.weekStart == ws && v.weekEnd == we

/-- The claimed invariant: every group that has at least one version has
exactly one active version (quantified over the versions present, i.e. over
exactly the nonempty groups). -/
abbrev SingleActiveInv (db : List Version) : Prop :=
  ∀ v ∈ db, db.countP
    (fun w => inGroup v.classId v.weekStart v.weekEnd w && w.isActive) = 1

/-- The row-level effect of one `setActiveVersion` call. -/
def savFun (vid c ws we : String) (w : Version) : Version :=
  if w.id == vid then { w with isActive := true }
  else if inGroup c ws we w then { w with isActive := false }
  else w

theorem savFun_id (vid c ws we : String) (w : Version) :
    (savFun vid c ws we w).id = w.id := by
  unfold savFun
  by_cases h1 : w.id == vid <;> by_cases h2 : inGroup c ws we w <;>
    simp [h1, h2]

theorem savFun_classId (vid c ws we : String) (w : Version) :
    (savFun vid c ws we w).classId = w.classId := by
  unfold savFun
  by_cases h1 : w.id == vid <;> by_cases h2 : inGroup c ws we w <;>
    simp [h1, h2]

theorem savFun_weekStart (vid c ws we : String) (w : Version) :
    (savFun vid c ws we w).weekStart = w.weekStart := by
  unfold savFun
  by_cases h1 : w.id == vid <;> by_cases h2 : inGroup c ws we w <;>
    simp [h1, h2]

theorem savFun_weekEnd (vid c ws we : String) (w : Version) :
    (savFun vid c ws we w).weekEnd = w.weekEnd := by
  unfold savFun
  by_cases h1 : w.id == vid <;> by_cases h2 : inGroup c ws we w <;>
    simp [h1, h2]

theorem savFun_isActive (vid c ws we : String) (w : Version) :
    (savFun vid c ws we w).isActive =
      if w.id == vid then true
      else if inGroup c ws we w then false
      else w.isActive := by
  unfold savFun
  by_cases h1 : w.id == vid <;> by_cases h2 : inGroup c ws we w <;>
    simp [h1, h2]

theorem inGroup_savFun (c' ws' we' vid c ws we : String) (w : Version) :
    inGroup c' ws' we' (savFun vid c ws we w) = inGroup c' ws' we' w := by
  unfold inGroup
  rw [savFun_classId, savFun_weekStart, savFun_weekEnd]

/-- Both updates of `setActiveVersion` fused into a single map. -/
theorem deactivate_then_activate (db : List Version) (vid c ws we : String) :
    activateId (deactivateGroup db c ws we) vid
      = db.map (savFun vid c ws we) := by
  unfold activateId deactivateGroup savFun inGroup
  rw [List.map_map]
  refine List.map_congr_left ?_
  intro w _
  simp only [Function.comp]
  by_cases h2 : (w.classId == c && w.weekStart == ws && w.weekEnd == we)
      = true <;>
    by_cases h1 : (w.id == vid) = true <;>
      simp [h1, h2]

theorem savFun_idem (vid c ws we : String) (w : Version) :
    savFun vid c ws we (savFun vid c ws we w) = savFun vid c ws we w := by
  unfold savFun inGroup
  by_cases h2 : (w.classId == c && w.weekStart == ws && w.weekEnd == we)
      = true <;>
    by_cases h1 : (w.id == vid) = true <;>
      simp [h1, h2]

/-- `setActiveVersion` equals the single fused map whenever the version id
resolves — in both the normal and the force-fix branch. -/
theorem setActiveVersion_eq_map (db : List Version) (vid cid : String)
    (v : Version) (hfind : db.find? (fun w => w.id == vid) = some v) :
    setActiveVersion db vid cid
      = db.map (savFun vid cid v.weekStart v.weekEnd) := by
  unfold setActiveVersion
  rw [hfind]
  simp only [deactivate_then_activate]
  by_cases hcnt : countActiveInGroup
      (db.map (savFun vid cid v.weekStart v.weekEnd)) cid v.weekStart
      v.weekEnd > 1
  · rw [if_pos hcnt, List.map_map]
    refine List.map_congr_left ?_
    intro w _
    exact savFun_idem vid cid v.weekStart v.weekEnd w
  · rw [if_neg hcnt]

theorem eq_of_mem_unique_id (db : List Version) (hu : UniqueIds db)
    (v w : Version) (hv : v ∈ db) (hw : w ∈ db) (h : w.id = v.id) :
    w = v := by
  induction db with
  | nil => cases hv
  | cons a tl ih =>
    obtain ⟨ha, htl⟩ := List.pairwise_cons.mp hu
    rcases List.mem_cons.mp hv with rfl | hv1
    · rcases List.mem_cons.mp hw with rfl | hw1
      · rfl
      · exact absurd h.symm (ha w hw1)
    · rcases List.mem_cons.mp hw with rfl | hw1
      · exact absurd h (ha v hv1)
      · exact ih htl hv1 hw1

theorem countP_id_eq_one (db : List Version) (hu : UniqueIds db)
    (v : Version) (hv : v ∈ db) :
    db.countP (fun w => w.id == v.id) = 1 := by
  induction db with
  | nil => cases hv
  | cons a tl ih =>
    obtain ⟨ha, htl⟩ := List.pairwise_cons.mp hu
    rw [List.countP_cons]
    rcases List.mem_cons.mp hv with rfl | hv1
    · have hz : tl.countP (fun w => w.id == v.id) = 0 := by
        refine List.countP_eq_zero.mpr ?_
        intro w hw
        simpa using (ha w hw).symm
      simp [hz]
    · have hne : (a.id == v.id) = false := by
        simpa using ha v hv1
      simp [hne, ih htl hv1]

/-- One valid `setActiveVersion` call preserves id-uniqueness and the
single-active invariant (and establishes it for the targeted group). -/
theorem setActiveVersion_step (db : List Version) (vid cid : String)
    (hu : UniqueIds db) (hinv : SingleActiveInv db) (v : Version)
    (hfind : db.find? (fun w => w.id == vid) = some v)
    (hcls : v.classId = cid) :
    SingleActiveInv (setActiveVersion db vid cid)
      ∧ UniqueIds (setActiveVersion db vid cid) := by
  have hvm : v ∈ db := List.mem_of_find?_eq_some hfind
  have hvid : v.id = vid := by
    simpa using List.find?_some hfind
  rw [setActiveVersion_eq_map db vid cid v hfind]
  constructor
  · intro u hu'
    rcases List.mem_map.mp hu' with ⟨w0, hw0, rfl⟩
    rw [List.countP_map]
    rw [savFun_classId, savFun_weekStart, savFun_weekEnd]
    by_cases hG : inGroup cid v.weekStart v.weekEnd w0
    · have hg1 : (w0.classId = cid ∧ w0.weekStart = v.weekStart)
          ∧ w0.weekEnd = v.weekEnd := by
        simpa [inGroup] using hG
      obtain ⟨⟨hg1c, hg1s⟩, hg1e⟩ := hg1
      have hpt : ∀ w ∈ db,
          ((fun x => inGroup w0.classId w0.weekStart w0.weekEnd x
              && x.isActive) ∘ savFun vid cid v.weekStart v.weekEnd) w = true
            ↔ (fun w => w.id == vid) w = true := by
        intro w hw
        simp only [Function.comp, inGroup_savFun, savFun_isActive]
        by_cases h1 : w.id == vid
        · have hweq : w = v :=
            eq_of_mem_unique_id db hu v w hvm hw (by simpa [hvid] using h1)
          subst hweq
          simp [h1, inGroup, hg1c, hg1s, hg1e, hcls]
        · by_cases h2 : inGroup cid v.weekStart v.weekEnd w
          · simp [h1, h2]
          · have h2' : inGroup w0.classId w0.weekStart w0.weekEnd w = false := by
              unfold inGroup at h2 ⊢
              simpa [hg1c, hg1s, hg1e] using h2
            simp [h1, h2, h2']
      rw [List.countP_congr hpt]
      rw [← hvid]
      exact countP_id_eq_one db hu v hvm
    · have hpt : ∀ w ∈ db,
          ((fun x => inGroup w0.classId w0.weekStart w0.weekEnd x
              && x.isActive) ∘ savFun vid cid v.weekStart v.weekEnd) w = true
            ↔ (fun x => inGroup w0.classId w0.weekStart w0.weekEnd x
              && x.isActive) w = true := by
        intro w hw
        simp only [Function.comp, inGroup_savFun, savFun_isActive]
        by_cases h1 : w.id == vid
        · have hweq : w = v :=
            eq_of_mem_unique_id db hu v w hvm hw (by simpa [hvid] using h1)
          subst hweq
          have hng : inGroup w0.classId w0.weekStart w0.weekEnd w = false := by
            unfold inGroup at hG ⊢
            by_cases hc : w.classId = w0.classId
            · by_cases hs : w.weekStart = w0.weekStart
              · by_cases he : w.weekEnd = w0.weekEnd
                · exfalso
                  apply hG
                  simp [← hc, ← hs, ← he, hcls]
                · simp [he]
              · simp [hs]
            · simp [hc]
          simp [h1, hng]
        · by_cases h2 : inGroup cid v.weekStart v.weekEnd w
          · have hng : inGroup w0.classId w0.weekStart w0.weekEnd w = false := by
              unfold inGroup at hG h2 ⊢
              simp only [Bool.and_eq_true, beq_iff_eq] at h2
              obtain ⟨⟨hc, hs⟩, he⟩ := h2
              by_cases hcc : w.classId = w0.classId
              · by_cases hss : w.weekStart = w0.weekStart
                · by_cases hee : w.weekEnd = w0.weekEnd
                  · exfalso
                    apply hG
                    simp [← hcc, ← hss, ← hee, hc, hs, he]
                  · simp [hee]
                · simp [hss]
              · simp [hcc]
            simp [h1, h2, hng]
          · simp [h1, h2]
      rw [List.countP_congr hpt]
      exact hinv w0 hw0
  · unfold UniqueIds
    rw [List.pairwise_map]
    refine (List.Pairwise.imp ?_) hu
    intro a b h
    rw [savFun_id, savFun_id]
    exact h

/-- Boolean validity of one call: the version id resolves and the resolved
version belongs to the passed class. -/
def callOk (db : List Version) (vid cid : String) : Bool :=
  match db.find? (fun w => w.id == vid) with
  | some v => v.classId == cid
  | none => false

/-- Validity of a call sequence against the evolving table. -/
def validCallsB : List Version → List (String × String) → Bool
  | _, [] => true
  | db, (vid, cid) :: rest =>
    callOk db vid cid && validCallsB (setActiveVersion db vid cid) rest

/-- Sequential execution of `setActiveVersion` calls. -/
def applyCalls : List (String × String) → List Version → List Version
  | [], db => db
  | (vid, cid) :: rest, db => applyCalls rest (setActiveVersion db vid cid)

/-- C3 (amended): provided version ids are unique and every nonempty
(classId, weekStart, weekEnd) group starts with exactly one active version,
any sequence of valid `setActiveVersion` calls preserves the invariant: a
call forces exactly one active version in the targeted version's group and
leaves every other group untouched.  (As the counterexample shows, the
original unconditional claim fails for groups the sequence never touches.) -/
theorem C3_amended_single_active_preserved (calls : List (String × String)) :
    ∀ (db : List Version), UniqueIds db → SingleActiveInv db →
      validCallsB db calls = true → SingleActiveInv (applyCalls calls db) := by
  induction calls with
  | nil => intro db _ hinv _; exact hinv
  | cons call rest ih =>
    obtain ⟨vid, cid⟩ := call
    intro db hu hinv hv
    simp only [validCallsB, Bool.and_eq_true] at hv
    obtain ⟨h1, h2⟩ := hv
    unfold callOk at h1
    cases hfind : db.find? (fun w => w.id == vid) with
    | none => rw [hfind] at h1; cases h1
    | some v =>
      rw [hfind] at h1
      have hcls : v.classId = cid := by simpa using h1
      have hstep := setActiveVersion_step db vid cid hu hinv v hfind hcls
      exact ih (setActiveVersion db vid cid) hstep.2 hstep.1 h2

/-- A version table with two classes' groups: `cA`'s single version is
inactive, `cB`'s is active. -/
def cexDb : List Version :=
  [⟨"v1", "cA", "v0.1", "ws", "we", false⟩,
   ⟨"v2", "cB", "v0.1", "ws", "we", true⟩]

/-- C3 counterexample: after a valid `setActiveVersion` call (targeting
class `cB`'s version), the group (cA, ws, we) still has one version and
zero active versions — the claimed "exactly one active version for every
group with at least one version" fails for groups the calls never touch. -/
theorem C3_counterexample :
    validCallsB cexDb [("v2", "cB")] = true
    ∧ 0 < (applyCalls [("v2", "cB")] cexDb).countP (inGroup "cA" "ws" "we")
    ∧ (applyCalls [("v2", "cB")] cexDb).countP
        (fun v => inGroup "cA" "ws" "we" v && v.isActive) = 0 := by decide

/-- A one-version table satisfying the amended theorem's hypotheses. -/
def wDb : List Version := [⟨"v1", "cA", "v0.1", "ws", "we", true⟩]

/-- Witness for the amended C3 theorem at a concrete table and call list. -/
theorem C3_amended_witness :
    SingleActiveInv (applyCalls [("v1", "cA")] wDb) :=
  C3_amended_single_active_preserved [("v1", "cA")] wDb (by decide)
    (by decide) (by decide)

/-! ## Time Grid Builder (claim C4) -/

/-- Modelled from the spec's words alone, for comparison with the code's
builder: "five weekdays (monday-friday) times eight periods with the
canonical times 08:00-08:45 through 13:30-14:15". -/
def specDefaultGrid : List TimeSlot :=
  ["monday", "tuesday", "wednesday", "thursday", "friday"].flatMap (fun d =>
    [(1, "08:00", "08:45"), (2, "08:45", "09:30"), (3, "09:30", "10:15"),
     (4, "10:15", "11:00"), (5, "11:15", "12:00"), (6, "12:00", "12:45"),
     (7, "12:45", "13:30"), (8, "13:30", "14:15")].map
      (fun t => ⟨d, t.1, t.2.1, t.2.2⟩))

/-- A configured structure with a single working day and a single slot. -/
def cexStructure : TTStructure :=
  ⟨some ["monday"], some [⟨1, "09:00", "09:45", false⟩]⟩

/-- C4 counterexample: the scheduler is a singleton; after a run that loaded
`cexStructure`, a later run for a school with NO structure keeps the
previous grid — it does not equal (or rebuild) the default grid, contrary to
the claim. -/
theorem C4_counterexample :
    initializeFromStructure
        (initializeFromStructure newSchedulerSlots (some cexStructure)) none
      ≠ specDefaultGrid := by decide

/-- C4 (amended): when a structure is found the grid is freshly rebuilt
from it, excluding slots marked isBreak; when NO structure is found the
builder leaves the previous grid unchanged (which equals the canonical
default only while no structure grid was ever loaded, e.g. on a freshly
constructed scheduler); the builder itself never fails. -/
theorem C4_amended_grid_builder :
    (∀ prev, initializeFromStructure prev none = prev)
    ∧ (∀ prev s, initializeFromStructure prev (some s) = gridFromStructure s)
    ∧ (∀ s : TTStructure, ∀ x ∈ gridFromStructure s,
        x.day ∈ s.workingDays.getD defaultDays
        ∧ ∃ t ∈ s.timeSlots.getD defaultPeriodTimes, t.isBreak = false
            ∧ x.period = t.period ∧ x.startTime = t.startTime
            ∧ x.endTime = t.endTime)
    ∧ newSchedulerSlots = specDefaultGrid := by
  refine ⟨fun prev => rfl, fun prev s => rfl, ?_, by decide⟩
  intro s x hx
  unfold gridFromStructure at hx
  rcases List.mem_flatMap.mp hx with ⟨d, hd, hx2⟩
  rcases List.mem_map.mp hx2 with ⟨t, ht, rfl⟩
  have hft := List.mem_filter.mp ht
  refine ⟨hd, t, hft.1, ?_, rfl, rfl, rfl⟩
  simpa using hft.2

/-- Witness for the amended C4 theorem: the single slot of
`gridFromStructure cexStructure` traces back to the configured non-break
slot and working day. -/
theorem C4_amended_witness :
    (⟨"monday", 1, "09:00", "09:45"⟩ : TimeSlot).day ∈
        cexStructure.workingDays.getD defaultDays
    ∧ ∃ t ∈ cexStructure.timeSlots.getD defaultPeriodTimes,
        t.isBreak = false
        ∧ (⟨"monday", 1, "09:00", "09:45"⟩ : TimeSlot).period = t.period
        ∧ (⟨"monday", 1, "09:00", "09:45"⟩ : TimeSlot).startTime = t.startTime
        ∧ (⟨"monday", 1, "09:00", "09:45"⟩ : TimeSlot).endTime = t.endTime :=
  C4_amended_grid_builder.2.2.1 cexStructure
    ⟨"monday", 1, "09:00", "09:45"⟩ (by decide)

/-! ## Generation-flow lemmas (claims C5, C6) -/

theorem genVersionsLoop_entries (freshIds : Nat → String) (ws we : String) :
    ∀ (cs : List ClassRec) (i : Nat) (st : Storage),
      (genVersionsLoop freshIds ws we cs i st).2.entries = st.entries := by
  intro cs
  induction cs with
  | nil => intro i st; rfl
  | cons c rest ih =>
    intro i st
    simp only [genVersionsLoop]
    exact ih (i + 1) _

theorem genVersionsLoop_assignments (freshIds : Nat → String)
    (ws we : String) :
    ∀ (cs : List ClassRec) (i : Nat) (st : Storage),
      (genVersionsLoop freshIds ws we cs i st).2.assignments
        = st.assignments := by
  intro cs
  induction cs with
  | nil => intro i st; rfl
  | cons c rest ih =>
    intro i st
    simp only [genVersionsLoop]
    exact ih (i + 1) _

theorem buildConstraints_congr (st st' : Storage)
    (h : st'.assignments = st.assignments) (classes : List ClassRec) :
    buildConstraints st' classes = buildConstraints st classes := by
  unfold buildConstraints getClassSubjectAssignments
  rw [h]

theorem eligibleFor_eq_nil (teachers : List Teacher) (c : ScheduleConstraint)
    (h : baseEligible teachers c = []) : eligibleFor teachers c = [] := by
  simp only [eligibleFor]
  rw [h]
  simp

/-- If no teacher of the roster is qualified for any subject of the roster,
the solver places nothing. -/
theorem solveScheduleAux_unqualified (teachers : List Teacher)
    (subjects : List Subject) (slotOrder : Nat → List TimeSlot)
    (h : ∀ t ∈ teachers, ∀ s ∈ subjects, s.id ∉ t.subjects) :
    ∀ (cs : List ScheduleConstraint) (i : Nat) (st : SolveState),
      (solveScheduleAux teachers subjects slotOrder cs i st).schedule
        = st.schedule := by
  intro cs
  induction cs with
  | nil => intro i st; rfl
  | cons c rest ih =>
    intro i st
    have hpc : processConstraint teachers subjects (slotOrder i) st c = st := by
      unfold processConstraint
      cases hfind : subjects.find? (fun s => s.id == c.subjectId) with
      | none => rfl
      | some s0 =>
        have hs0m : s0 ∈ subjects := List.mem_of_find?_eq_some hfind
        have hs0id : s0.id = c.subjectId := by
          simpa using List.find?_some hfind
        have hbase : baseEligible teachers c = [] := by
          refine List.filter_eq_nil_iff.mpr ?_
          intro t ht
          have hnm := h t ht s0 hs0m
          rw [hs0id] at hnm
          simp [hnm]
        rw [eligibleFor_eq_nil teachers c hbase]
        simp
    rw [solveScheduleAux, hpc]
    exact ih (i + 1) st

/-- Every early-check failure of `generateForClasses` (no first class, blank
school id, empty subjects or teachers roster) returns a structured failure
and leaves the storage untouched. -/
theorem generateForClasses_early (st : Storage) (classes : List ClassRec)
    (ws we : String) (freshIds : Nat → String)
    (shuffle : List ScheduleConstraint → List ScheduleConstraint)
    (slotOrder : Nat → List TimeSlot) (prevSlots : List TimeSlot)
    (h : ∀ c0, classes.head? = some c0 →
      c0.schoolId = "" ∨ st.subjects = [] ∨ getTeachers st c0.schoolId = []) :
    (generateForClasses st classes ws we freshIds shuffle slotOrder
        prevSlots).1.success = false
    ∧ (generateForClasses st classes ws we freshIds shuffle slotOrder
        prevSlots).1.entriesCreated = none
    ∧ (generateForClasses st classes ws we freshIds shuffle slotOrder
        prevSlots).1.message ∈ [msgSchool, msgEnsure]
    ∧ (generateForClasses st classes ws we freshIds shuffle slotOrder
        prevSlots).2 = st := by
  cases hh : classes.head? with
  | none => simp [generateForClasses, hh]
  | some c0 =>
    rcases h c0 hh with h1 | h2 | h3
    · have hs : (c0.schoolId == "") = true := by simpa using h1
      simp [generateForClasses, hh, hs]
    · by_cases hs : (c0.schoolId == "") = true
      · simp [generateForClasses, hh, hs]
      · have hlen : (st.subjects.length == 0) = true := by simp [h2]
        simp [generateForClasses, hh, hs, hlen]
    · by_cases hs : (c0.schoolId == "") = true
      · simp [generateForClasses, hh, hs]
      · have hlen : ((getTeachers st c0.schoolId).length == 0) = true := by
          simp [h3]
        simp [generateForClasses, hh, hs, hlen]

/-- Whatever branch is taken, when the solver yields zero entries the flow
reports failure with no `entriesCreated` and persists no entries. -/
theorem generateForClasses_total (st : Storage) (classes : List ClassRec)
    (ws we : String) (freshIds : Nat → String)
    (shuffle : List ScheduleConstraint → List ScheduleConstraint)
    (slotOrder : Nat → List TimeSlot) (prevSlots : List TimeSlot)
    (h : ∀ c0, classes.head? = some c0 →
      solveSchedule (shuffle (buildConstraints st classes))
        (getTeachers st c0.schoolId) st.subjects slotOrder = []) :
    (generateForClasses st classes ws we freshIds shuffle slotOrder
        prevSlots).1.success = false
    ∧ (generateForClasses st classes ws we freshIds shuffle slotOrder
        prevSlots).1.entriesCreated = none
    ∧ (generateForClasses st classes ws we freshIds shuffle slotOrder
        prevSlots).2.entries = st.entries := by
  cases hh : classes.head? with
  | none => simp [generateForClasses, hh]
  | some c0 =>
    by_cases hs : (c0.schoolId == "") = true
    · simp [generateForClasses, hh, hs]
    · by_cases hlen : (classes.length == 0 || st.subjects.length == 0
          || (getTeachers st c0.schoolId).length == 0) = true
      · simp [generateForClasses, hh, hs, hlen]
      · have hbc : buildConstraints
            (genVersionsLoop freshIds ws we classes 0 st).2 classes
            = buildConstraints st classes :=
          buildConstraints_congr st _
            (genVersionsLoop_assignments freshIds ws we classes 0 st) classes
        have hsched := h c0 hh
        simp [generateForClasses, hh, hs, hlen, hbc, hsched,
          genVersionsLoop_entries]

/-- C5: if the solver produces zero entries across all constraints — in
particular when zero teachers are qualified for any subject — the
generation call reports failure with no `entriesCreated` field (i.e. zero
entries created) and persists no timetable entries.  (Versions may already
have been created; only the entry table is claimed and shown unchanged.) -/
theorem C5_zero_schedule_failure :
    (∀ (st : Storage) (c0 : ClassRec) (rest : List ClassRec) (ws we : String)
        (freshIds : Nat → String)
        (shuffle : List ScheduleConstraint → List ScheduleConstraint)
        (slotOrder : Nat → List TimeSlot) (prevSlots : List TimeSlot),
      solveSchedule (shuffle (buildConstraints st (c0 :: rest)))
          (getTeachers st c0.schoolId) st.subjects slotOrder = [] →
      (generateForClasses st (c0 :: rest) ws we freshIds shuffle slotOrder
          prevSlots).1.success = false
      ∧ (generateForClasses st (c0 :: rest) ws we freshIds shuffle slotOrder
          prevSlots).1.entriesCreated = none
      ∧ (generateForClasses st (c0 :: rest) ws we freshIds shuffle slotOrder
          prevSlots).2.entries = st.entries)
    ∧ (∀ (st : Storage) (classId? userSchoolId? : Option String)
        (ws we : String) (freshIds : Nat → String)
        (shuffle : List ScheduleConstraint → List ScheduleConstraint)
        (slotOrder : Nat → List TimeSlot) (prevSlots : List TimeSlot),
      (∀ t ∈ st.teachers, ∀ s ∈ st.subjects, s.id ∉ t.subjects) →
      (generateTimetable st classId? userSchoolId? ws we freshIds shuffle
          slotOrder prevSlots).1.success = false
      ∧ (generateTimetable st classId? userSchoolId? ws we freshIds shuffle
          slotOrder prevSlots).1.entriesCreated = none
      ∧ (generateTimetable st classId? userSchoolId? ws we freshIds shuffle
          slotOrder prevSlots).2.entries = st.entries) := by
  constructor
  · intro st c0 rest ws we freshIds shuffle slotOrder prevSlots h
    refine generateForClasses_total st (c0 :: rest) ws we freshIds shuffle
      slotOrder prevSlots ?_
    intro c1 hc1
    have hc : c1 = c0 := by simpa using hc1.symm
    rw [hc]
    exact h
  · intro st cid? usid? ws we freshIds shuffle slotOrder prevSlots h
    have hsolve : ∀ (cs : List ScheduleConstraint) (teachers2 : List Teacher),
        (∀ t ∈ teachers2, t ∈ st.teachers) →
        solveSchedule cs teachers2 st.subjects slotOrder = [] := by
      intro cs teachers2 hsub
      unfold solveSchedule
      exact solveScheduleAux_unqualified teachers2 st.subjects slotOrder
        (fun t ht s hs => h t (hsub t ht) s hs) cs 0 ⟨[], [], []⟩
    cases cid? with
    | some cid =>
      cases hfind : st.classes.find? (fun c => c.id == cid) with
      | none => simp [generateTimetable, hfind]
      | some c =>
        simp only [generateTimetable, hfind]
        refine generateForClasses_total st [c] ws we freshIds shuffle
          slotOrder prevSlots ?_
        intro c0 hc0
        exact hsolve _ _ (fun t ht => (List.mem_filter.mp ht).1)
    | none =>
      cases usid? with
      | none => simp [generateTimetable]
      | some u =>
        simp only [generateTimetable]
        refine generateForClasses_total st _ ws we freshIds shuffle
          slotOrder prevSlots ?_
        intro c0 hc0
        exact hsolve _ _ (fun t ht => (List.mem_filter.mp ht).1)

/-- A storage whose single teacher is qualified for no subject. -/
def demoStorage : Storage :=
  { classes := [⟨"c1", "sch1", "5", "A"⟩],
    subjects := [⟨"s1", "Math", "sch1"⟩],
    teachers := [⟨"t1", "sch1", [], [], true⟩],
    assignments := [⟨"c1", "s1", 3, none, "Math"⟩],
    structures := [], versions := [], entries := [] }

/-- Witness for C5: at `demoStorage` no teacher is qualified for any
subject, and the generation call reports failure, no entries created, and
an unchanged entry table. -/
theorem C5_witness :
    (∀ t ∈ demoStorage.teachers, ∀ s ∈ demoStorage.subjects,
        s.id ∉ t.subjects)
    ∧ ((generateTimetable demoStorage (some "c1") none "ws" "we"
          (fun _ => "nv") id (fun _ => [demoSlot])
          newSchedulerSlots).1.success = false
      ∧ (generateTimetable demoStorage (some "c1") none "ws" "we"
          (fun _ => "nv") id (fun _ => [demoSlot])
          newSchedulerSlots).1.entriesCreated = none
      ∧ (generateTimetable demoStorage (some "c1") none "ws" "we"
          (fun _ => "nv") id (fun _ => [demoSlot])
          newSchedulerSlots).2.entries = demoStorage.entries) :=
  ⟨by decide, C5_zero_schedule_failure.2 demoStorage (some "c1") none
    "ws" "we" (fun _ => "nv") id (fun _ => [demoSlot]) newSchedulerSlots
    (by decide)⟩

/-- C6 (amended): on any input-absence failure the code actually checks —
the requested class id does not resolve, no school can be resolved (no
selected class, or a blank school id), the *global* subjects table is empty
(`getSubjects()` is called without a school filter), or the school's active
teachers roster is empty — the generation call returns a structured failure
result carrying one of the human-readable messages, reports no created
entries, and leaves the whole persisted state unchanged (no version and no
entry is created).  The original claim's school-scoped subjects condition
does NOT abort early: see the counterexample below, where a school whose
own subject roster is empty passes these checks and a TimetableVersion is
created before the run fails. -/
theorem C6_input_absence_failures (st : Storage)
    (classId? userSchoolId? : Option String) (ws we : String)
    (freshIds : Nat → String)
    (shuffle : List ScheduleConstraint → List ScheduleConstraint)
    (slotOrder : Nat → List TimeSlot) (prevSlots : List TimeSlot)
    (h :
      (∃ cid, classId? = some cid
        ∧ st.classes.find? (fun c => c.id == cid) = none)
      ∨ (classId? = none ∧ userSchoolId? = none)
      ∨ (∃ cid c, classId? = some cid
          ∧ st.classes.find? (fun x => x.id == cid) = some c
          ∧ (c.schoolId = "" ∨ st.subjects = []
              ∨ getTeachers st c.schoolId = []))
      ∨ (∃ u, classId? = none ∧ userSchoolId? = some u
          ∧ ∀ c0, (st.classes.filter (fun c => c.schoolId == u)).head?
              = some c0 →
            (c0.schoolId = "" ∨ st.subjects = []
              ∨ getTeachers st c0.schoolId = []))) :
    (generateTimetable st classId? userSchoolId? ws we freshIds shuffle
        slotOrder prevSlots).1.success = false
    ∧ (generateTimetable st classId? userSchoolId? ws we freshIds shuffle
        slotOrder prevSlots).1.entriesCreated = none
    ∧ (generateTimetable st classId? userSchoolId? ws we freshIds shuffle
        slotOrder prevSlots).1.message
        ∈ [msgClassNotFound, msgSpecific, msgSchool, msgEnsure]
    ∧ (generateTimetable st classId? userSchoolId? ws we freshIds shuffle
        slotOrder prevSlots).2 = st := by
  rcases h with ⟨cid, hcid, hfind⟩ | ⟨hc, hu⟩ | ⟨cid, c, hcid, hfind, hcond⟩
      | ⟨u, hc, hu, hcond⟩
  · subst hcid
    simp [generateTimetable, hfind]
  · subst hc; subst hu
    simp [generateTimetable]
  · subst hcid
    simp only [generateTimetable, hfind]
    have hearly := generateForClasses_early st [c] ws we freshIds shuffle
      slotOrder prevSlots (fun c0 hc0 => by
        have hcc : c0 = c := by simpa using hc0.symm
        rw [hcc]
        exact hcond)
    refine ⟨hearly.1, hearly.2.1, ?_, hearly.2.2.2⟩
    have hm := hearly.2.2.1
    simp only [List.mem_cons, List.mem_singleton] at hm ⊢
    tauto
  · subst hc; subst hu
    simp only [generateTimetable]
    have hearly := generateForClasses_early st
      (st.classes.filter (fun c => c.schoolId == u)) ws we freshIds shuffle
      slotOrder prevSlots hcond
    refine ⟨hearly.1, hearly.2.1, ?_, hearly.2.2.2⟩
    have hm := hearly.2.2.1
    simp only [List.mem_cons, List.mem_singleton] at hm ⊢
    tauto

/-- A completely empty storage. -/
def emptyStorage : Storage := ⟨[], [], [], [], [], [], []⟩

/-- Witness for C6: requesting a class id that does not resolve on the
empty storage fails with "Class not found." and changes nothing. -/
theorem C6_witness :
    (generateTimetable emptyStorage (some "c1") none "ws" "we"
        (fun _ => "nv") id (fun _ => []) []).1.success = false
    ∧ (generateTimetable emptyStorage (some "c1") none "ws" "we"
        (fun _ => "nv") id (fun _ => []) []).1.entriesCreated = none
    ∧ (generateTimetable emptyStorage (some "c1") none "ws" "we"
        (fun _ => "nv") id (fun _ => []) []).1.message
        ∈ [msgClassNotFound, msgSpecific, msgSchool, msgEnsure]
    ∧ (generateTimetable emptyStorage (some "c1") none "ws" "we"
        (fun _ => "nv") id (fun _ => []) []).2 = emptyStorage :=
  C6_input_absence_failures emptyStorage (some "c1") none "ws" "we"
    (fun _ => "nv") id (fun _ => []) []
    (Or.inl ⟨"c1", rfl, by decide⟩)

/-- A storage where school `sch1` (class `c1`, one active teacher) has an
EMPTY subject roster, while the global subjects table is nonempty (it holds
only school `sch2`'s subject).  `c1` has no subject assignments, so the
solver will place nothing. -/
def cexStorage6 : Storage :=
  { classes := [⟨"c1", "sch1", "5", "A"⟩],
    subjects := [⟨"s2", "Art", "sch2"⟩],
    teachers := [⟨"t1", "sch1", ["s2"], [], true⟩],
    assignments := [],
    structures := [], versions := [], entries := [] }

/-- C6 counterexample: the subjects roster *for the school* is empty (the
claim's antecedent), yet the run passes the input checks — `getSubjects()`
is unscoped, so the nonempty global table satisfies them — creates a
TimetableVersion, and only then reports the solver's total failure.  The
claimed "before any TimetableVersion ... is created — persisted state is
unchanged" is therefore false. -/
theorem C6_counterexample :
    cexStorage6.subjects ≠ []
    ∧ cexStorage6.subjects.filter (fun s => s.schoolId == "sch1") = []
    ∧ cexStorage6.classes.find? (fun c => c.id == "c1")
        = some ⟨"c1", "sch1", "5", "A"⟩
    ∧ (generateTimetable cexStorage6 (some "c1") none "ws" "we"
        (fun _ => "nv") id (fun _ => []) []).1.success = false
    ∧ cexStorage6.versions = []
    ∧ (generateTimetable cexStorage6 (some "c1") none "ws" "we"
        (fun _ => "nv") id (fun _ => []) []).2.versions
        = [⟨"nv", "c1", "v0.1", "ws", "we", true⟩] := by decide

/-! ## Validator (claims C9, C10) -/

theorem buildClassSubjectCount_lookup :
    ∀ (entries : List TimetableEntry)
      (m : List (String × List (String × Nat))) (cid sid : String),
      (lookupKey ((lookupKey (buildClassSubjectCount entries m) cid).getD [])
          sid).getD 0
        = (lookupKey ((lookupKey m cid).getD []) sid).getD 0
          + entries.countP (fun e => e.classId == cid && e.subjectId == sid) := by
  intro entries
  induction entries with
  | nil => intro m cid sid; simp [buildClassSubjectCount]
  | cons e rest ih =>
    intro m cid sid
    rw [List.countP_cons]
    simp only [buildClassSubjectCount]
    rw [ih]
    have hbase :
        (lookupKey ((lookupKey (setKey m e.classId
            (setKey ((lookupKey m e.classId).getD []) e.subjectId
              (((lookupKey ((lookupKey m e.classId).getD [])
                  e.subjectId).getD 0) + 1))) cid).getD []) sid).getD 0
          = (lookupKey ((lookupKey m cid).getD []) sid).getD 0
            + (if (e.classId == cid && e.subjectId == sid) = true
                then 1 else 0) := by
      rw [lookupKey_setKey]
      by_cases hc : cid = e.classId
      · rw [if_pos hc, Option.getD_some, lookupKey_setKey]
        by_cases hs : sid = e.subjectId
        · rw [if_pos hs]
          have hp : (e.classId == cid && e.subjectId == sid) = true := by
            simp [hc.symm, hs.symm]
          rw [if_pos hp, hc, hs]
          simp
        · rw [if_neg hs]
          have hp : (e.classId == cid && e.subjectId == sid) = false := by
            simp [Ne.symm hs]
          rw [hp, hc]
          simp
      · rw [if_neg hc]
        have hp : (e.classId == cid && e.subjectId == sid) = false := by
          simp [Ne.symm hc]
        rw [hp]
        simp
    rw [hbase]
    omega

theorem insufficient_mem (st : Storage)
    (counts : List (String × List (String × Nat))) (c : ClassRec)
    (hc : c ∈ st.classes) (a : Assignment)
    (ha : a ∈ getClassSubjectAssignments st c.id)
    (hlt : (lookupKey ((lookupKey counts c.id).getD []) a.subjectId).getD 0
        < a.weeklyFrequency) :
    insufficientMsg c a
        ((lookupKey ((lookupKey counts c.id).getD []) a.subjectId).getD 0)
      ∈ freqConflicts st counts := by
  unfold freqConflicts
  refine List.mem_flatMap.mpr ⟨c, hc, ?_⟩
  refine List.mem_flatMap.mpr ⟨a, ha, ?_⟩
  simp [hlt]

/-- C9: for every class-subject assignment whose required weekly frequency
exceeds the count of matching active entries, `validateTimetable` reports
the "Insufficient periods" conflict string citing the actual and required
counts, and `isValid` is true iff the conflict list is empty. -/
theorem C9_validate_insufficient (st : Storage) :
    ((validateTimetable st).isValid = true
      ↔ (validateTimetable st).conflicts = [])
    ∧ (∀ c ∈ st.classes, ∀ a ∈ getClassSubjectAssignments st c.id,
        (activeEntries st).countP
            (fun e => e.classId == c.id && e.subjectId == a.subjectId)
          < a.weeklyFrequency →
        insufficientMsg c a ((activeEntries st).countP
            (fun e => e.classId == c.id && e.subjectId == a.subjectId))
          ∈ (validateTimetable st).conflicts) := by
  constructor
  · simp [validateTimetable, List.length_eq_zero]
  · intro c hc a ha hlt
    have hcount :
        (lookupKey ((lookupKey (buildClassSubjectCount (activeEntries st) [])
            c.id).getD []) a.subjectId).getD 0
          = (activeEntries st).countP
              (fun e => e.classId == c.id && e.subjectId == a.subjectId) := by
      have hb := buildClassSubjectCount_lookup (activeEntries st) [] c.id
        a.subjectId
      simpa [lookupKey] using hb
    have hmem := insufficient_mem st
      (buildClassSubjectCount (activeEntries st) []) c hc a ha
      (by rw [hcount]; exact hlt)
    rw [hcount] at hmem
    show _ ∈ teacherConflictsPass (activeEntries st)
      ++ roomConflictsPass (activeEntries st)
      ++ freqConflicts st (buildClassSubjectCount (activeEntries st) [])
    exact List.mem_append.mpr (Or.inr hmem)

/-- A storage with one class, one assignment requiring 5 weekly periods of
Mathematics, and only 3 matching active entries. -/
def valStorage : Storage :=
  { classes := [⟨"c1", "sch1", "5", "A"⟩],
    subjects := [⟨"s1", "Mathematics", "sch1"⟩],
    teachers := [],
    assignments := [⟨"c1", "s1", 5, none, "Mathematics"⟩],
    structures := [], versions := [],
    entries :=
      [⟨"c1", "t1", "s1", "monday", 1, "08:00", "08:45", none, none, true⟩,
       ⟨"c1", "t1", "s1", "tuesday", 1, "08:00", "08:45", none, none, true⟩,
       ⟨"c1", "t1", "s1", "wednesday", 1, "08:00", "08:45", none, none,
        true⟩] }

/-- Witness for C9: the concrete "needs 5 ... only has 3" conflict string is
reported. -/
theorem C9_witness :
    insufficientMsg ⟨"c1", "sch1", "5", "A"⟩
        ⟨"c1", "s1", 5, none, "Mathematics"⟩ 3
      ∈ (validateTimetable valStorage).conflicts := by
  have h := (C9_validate_insufficient valStorage).2
    ⟨"c1", "sch1", "5", "A"⟩ (by decide)
    ⟨"c1", "s1", 5, none, "Mathematics"⟩ (by decide) (by decide)
  exact h

/-- Every message produced by the teacher double-booking pass names a pair
of scanned entries with the same (teacherId, day, period) and distinct
classIds. -/
theorem teacherConflictsAux_sound (allEntries : List TimetableEntry) :
    ∀ (rest : List TimetableEntry) (m : List (String × List String)),
      (∀ x ∈ rest, x ∈ allEntries) →
      ∀ msg ∈ teacherConflictsAux allEntries rest m,
        ∃ e1 ∈ allEntries, ∃ e2 ∈ allEntries,
          msg = teacherConflictMsg e1 e2
          ∧ e1.teacherId = e2.teacherId ∧ e1.day = e2.day
          ∧ e1.period = e2.period ∧ e1.classId ≠ e2.classId := by
  intro rest
  induction rest with
  | nil => intro m _ msg hmsg; simp [teacherConflictsAux] at hmsg
  | cons e rest ih =>
    intro m hsub msg hmsg
    rw [teacherConflictsAux] at hmsg
    by_cases hk : ((lookupKey m e.teacherId).getD []).contains (slotDP e)
    · rw [if_pos hk] at hmsg
      cases hfind : allEntries.find? (fun x =>
          x.teacherId == e.teacherId && x.day == e.day && x.period == e.period
          && x.classId != e.classId) with
      | none =>
        rw [hfind] at hmsg
        exact ih m (fun x hx => hsub x (List.mem_cons_of_mem _ hx)) msg hmsg
      | some ce =>
        rw [hfind] at hmsg
        rcases List.mem_cons.mp hmsg with rfl | hmsg1
        · have hce := List.find?_some hfind
          simp only [Bool.and_eq_true, beq_iff_eq, bne_iff_ne] at hce
          obtain ⟨⟨⟨ht, hd⟩, hp⟩, hcls⟩ := hce
          exact ⟨e, hsub e (List.mem_cons_self _ _),
            ce, List.mem_of_find?_eq_some hfind, rfl,
            ht.symm, hd.symm, hp.symm, fun hx => hcls (hx.symm)⟩
        · exact ih m (fun x hx => hsub x (List.mem_cons_of_mem _ hx)) msg
            hmsg1
    · rw [if_neg hk] at hmsg
      exact ih _ (fun x hx => hsub x (List.mem_cons_of_mem _ hx)) msg hmsg

/-- C10: the validator emits a teacher-conflict string only when two active
entries with the same (teacherId, day, period) belong to two distinct
classIds; in particular, when the duplicate entries of every slot all
belong to one class, no teacher conflict is reported. -/
theorem C10_teacher_conflict_cross_class (entries : List TimetableEntry) :
    ∀ msg ∈ teacherConflictsPass entries,
      ∃ e1 ∈ entries, ∃ e2 ∈ entries,
        msg = teacherConflictMsg e1 e2
        ∧ e1.teacherId = e2.teacherId ∧ e1.day = e2.day
        ∧ e1.period = e2.period ∧ e1.classId ≠ e2.classId :=
  fun msg hmsg =>
    teacherConflictsAux_sound entries entries [] (fun x hx => hx) msg hmsg

/-- Two active entries double-booking teacher `t1` across classes. -/
def conflictEntries : List TimetableEntry :=
  [⟨"c1", "t1", "s1", "monday", 1, "08:00", "08:45", none, none, true⟩,
   ⟨"c2", "t1", "s1", "monday", 1, "08:00", "08:45", none, none, true⟩]

/-- Witness for C10: a concrete emitted teacher-conflict message and the
cross-class pair it names. -/
theorem C10_witness :
    ∃ e1 ∈ conflictEntries, ∃ e2 ∈ conflictEntries,
      "Teacher conflict: Teacher t1 is scheduled for both Class c2 and Class c1 on monday period 1"
          = teacherConflictMsg e1 e2
        ∧ e1.teacherId = e2.teacherId ∧ e1.day = e2.day
        ∧ e1.period = e2.period ∧ e1.classId ≠ e2.classId :=
  C10_teacher_conflict_cross_class conflictEntries
    "Teacher conflict: Teacher t1 is scheduled for both Class c2 and Class c1 on monday period 1"
    (by decide)

end Chrone
